import Mathlib

set_option maxRecDepth 8192

/-!
Verification of the Serena context-server extension (src/lib.rs).

The extension resolves a Python interpreter and synthesizes the launch
command for the Serena MCP server.  We give a shallow embedding of the
relevant Rust functions over `List Char` (a Rust `String`/`&str` is its
sequence of characters; the one divergence is that length is measured in
characters rather than UTF-8 bytes, which agrees on ASCII data, and
lowercasing is modelled on the ASCII fragment).  Child-process spawning,
the filesystem and the platform are abstracted into a `Sys` record of
oracles; everything else is translated function-for-function from the
source.  Paths follow the Unix/wasi semantics of Rust's `Path` (the
extension is compiled to wasm32-wasi, where the separator is a forward
slash); `rustParent`/`rustJoin` model `Path::parent` and `Path::join`
via the component grammar, rendering the result in normalized form.
-/

/-- Character set of Rust's char::is_whitespace (the Unicode White_Space
property), used by str::trim. -/
def rustIsWhitespace (c : Char) : Bool :=
  decide (c.toNat ∈ [0x09, 0x0A, 0x0B, 0x0C, 0x0D, 0x20, 0x85, 0xA0, 0x1680,
    0x2000, 0x2001, 0x2002, 0x2003, 0x2004, 0x2005, 0x2006, 0x2007, 0x2008,
    0x2009, 0x200A, 0x2028, 0x2029, 0x202F, 0x205F, 0x3000])

/-- Model of str::trim_start. -/
def rustTrimStart (s : List Char) : List Char :=
  s.dropWhile rustIsWhitespace

/-- Model of str::trim_end. -/
def rustTrimEnd (s : List Char) : List Char :=
  (s.reverse.dropWhile rustIsWhitespace).reverse

/-- Model of str::trim: whitespace removed from both ends. -/
def rustTrim (s : List Char) : List Char :=
  rustTrimEnd (rustTrimStart s)

/-- Model of str::starts_with with a string pattern: the pattern is a
prefix of the string. -/
def strStartsWith : List Char → List Char → Bool
  | _, [] => true
  | [], _ :: _ => false
  | c :: cs, p :: ps => c == p && strStartsWith cs ps

/-- Model of str::contains with a string pattern: the pattern occurs as a
contiguous substring. -/
def strContains : List Char → List Char → Bool
  | [], pat => pat.isEmpty
  | c :: cs, pat => strStartsWith (c :: cs) pat || strContains cs pat

/-- Model of str::strip_prefix: some rest when the pattern is a prefix,
none otherwise. -/
def stripPfx : List Char → List Char → Option (List Char)
  | [], s => some s
  | _ :: _, [] => none
  | p :: ps, c :: cs => if p = c then stripPfx ps cs else none

/-- Model of char::to_lowercase on the ASCII fragment (all characters the
program compares against are ASCII); Lean's Char.toLower lowers exactly
the ASCII uppercase letters, as Rust does on that range. -/
def rustToLower (s : List Char) : List Char :=
  s.map Char.toLower

/-- validate_python_path from src/lib.rs lines 169-185, character for
character: reject empty, over-long (the model counts characters; the
source counts UTF-8 bytes, which agrees on ASCII), NUL-containing,
traversal (".."), and doubled-separator ("//") inputs, then require
"python" (case-insensitively, via lowercasing) or a trusted root. -/
def validate_python_path (path : List Char) : Bool :=
  if path = [] ∨ 1000 ≤ path.length ∨ '\x00' ∈ path then false
  else if strContains path ("..".data) || strContains path ("//".data) then false
  else
    strContains (rustToLower path) ("python".data) ||
      strStartsWith (rustToLower path) ("/usr/".data) ||
      strStartsWith (rustToLower path) ("/opt/".data)

/-- Shared tail check of is_valid_python_version: the source twice writes
rest.is_empty() || rest.starts_with('.') || rest.starts_with(' '), i.e.
the stripped remainder is empty or begins with a dot or a space. -/
def after_version_ok : List Char → Bool
  | [] => true
  | c :: _ => c == '.' || c == ' '

/-- is_valid_python_version from src/lib.rs lines 188-203: trim, then
strip "Python 3.11" (and otherwise "Python 3.12") and accept when the
remainder is empty or starts with a dot or a space. -/
def is_valid_python_version (version_str : List Char) : Bool :=
  match stripPfx ("Python 3.11".data) (rustTrim version_str) with
  | some rest => after_version_ok rest
  | none =>
    match stripPfx ("Python 3.12".data) (rustTrim version_str) with
    | some rest => after_version_ok rest
    | none => false

/-- Boundary check as the spec words it: next character, if any, is a dot
or whitespace. -/
def claimed_after_ok : List Char → Bool
  | [] => true
  | c :: _ => c == '.' || rustIsWhitespace c

/-- Modelled from the spec wording of the VersionMatcher (claim C1): the
trimmed string starts with one of the two accepted prefixes and the
character immediately following the prefix, if any, is a dot or a
whitespace character. -/
def claimed_version_pred (s : List Char) : Bool :=
  (strStartsWith (rustTrim s) ("Python 3.11".data) &&
    claimed_after_ok ((rustTrim s).drop ("Python 3.11".data).length)) ||
  (strStartsWith (rustTrim s) ("Python 3.12".data) &&
    claimed_after_ok ((rustTrim s).drop ("Python 3.12".data).length))

/-- Amended VersionMatcher predicate: identical to the spec's wording
except that the boundary character after the prefix must be a dot or a
space (U+0020), not an arbitrary whitespace character. -/
def amended_version_pred (s : List Char) : Bool :=
  (strStartsWith (rustTrim s) ("Python 3.11".data) &&
    after_version_ok ((rustTrim s).drop ("Python 3.11".data).length)) ||
  (strStartsWith (rustTrim s) ("Python 3.12".data) &&
    after_version_ok ((rustTrim s).drop ("Python 3.12".data).length))

/-- Split a path string at every separator character; the resulting
pieces include empty pieces for leading, doubled and trailing
separators. -/
def splitOnSlash : List Char → List (List Char)
  | [] => [[]]
  | c :: cs =>
    if c = '/' then [] :: splitOnSlash cs
    else
      match splitOnSlash cs with
      | [] => [[c]]
      | a :: rest => (c :: a) :: rest

/-- A path has a root when it begins with the separator (Unix/wasi rules
of Rust's Path). -/
def pathAbsolute : List Char → Bool
  | c :: _ => c == '/'
  | [] => false

/-- Rust's Components keeps a leading current-directory component exactly
when the path is not absolute and is "." or begins with "./". -/
def pathHasCurDir (s : List Char) : Bool :=
  if pathAbsolute s then false
  else decide (s = ['.'] ∨ s.take 2 = ['.', '/'])

/-- The normal components of a path: the pieces between separators with
empty pieces and "." pieces discarded, as Rust's Components does. -/
def pathComps (s : List Char) : List (List Char) :=
  (splitOnSlash s).filter (fun c => decide (c ≠ [] ∧ c ≠ ['.']))

/-- Render a parsed path (root flag, current-directory flag, normal
components) back to a string in normalized form. -/
def renderPath (absolute : Bool) (hasCurDir : Bool) (comps : List (List Char)) : List Char :=
  if absolute then '/' :: List.intercalate ['/'] comps
  else if hasCurDir then List.intercalate ['/'] (['.'] :: comps)
  else List.intercalate ['/'] comps

/-- Model of Path::parent under Unix/wasi rules: drop the last
non-root component and render what remains; none when the path is empty
or consists of the root alone. -/
def rustParent (s : List Char) : Option (List Char) :=
  match (pathComps s).getLast? with
  | some _ => some (renderPath (pathAbsolute s) (pathHasCurDir s) (pathComps s).dropLast)
  | none => if pathHasCurDir s then some [] else none

/-- Model of Path::join under Unix/wasi rules: an absolute child replaces
the base; otherwise the child is appended, inserting a separator unless
the base is empty or already ends with one. -/
def rustJoin (base child : List Char) : List Char :=
  if pathAbsolute child then child
  else if base = [] then child
  else if base.getLast? = some '/' then base ++ child
  else base ++ '/' :: child

/-- The platform classes reported by zed_extension_api::current_platform. -/
inductive Os
  | mac
  | linux
  | windows
deriving DecidableEq

/-- zed_ext::sanitize_windows_path from src/lib.rs lines 323-335: on
Windows, trim_start_matches('/') removes every leading separator; on Mac
and Linux the path is returned as is. -/
def sanitize_windows_path (os : Os) (path : List Char) : List Char :=
  match os with
  | .mac | .linux => path
  | .windows => path.dropWhile (fun c => decide (c = '/'))

/-- Captured output of a spawned child process: exit-status success flag
and standard output (already decoded, as from_utf8_lossy does). -/
structure ProcOutput where
  success : Bool
  stdout : List Char
deriving DecidableEq

/-- The ambient system a resolution runs against.  which models spawning
the which utility on a candidate name (none is a spawn failure); probe
models spawning a candidate with the --version argument; fileExists
models Path::exists; hashIter models the iteration order of a
std::collections::HashMap, which visits the inserted entries in an order
the library does not specify (the argument is the entries in
configuration-source order; the result is the order the map's iterator
yields them in). -/
structure Sys where
  os : Os
  which : List Char → Option ProcOutput
  probe : List Char → Option ProcOutput
  fileExists : List Char → Bool
  hashIter : List (List Char × List Char) → List (List Char × List Char)

/-- SerenaContextServerSettings from src/lib.rs lines 14-20.  The
environment map is modelled as its entries in configuration-source
order; iteration order is supplied by Sys.hashIter. -/
structure SerenaContextServerSettings where
  python_executable : Option (List Char)
  environment : Option (List (List Char × List Char))
deriving DecidableEq

/-- Command descriptor returned to the host (zed_extension_api::Command). -/
structure Command where
  command : List Char
  args : List (List Char)
  env : List (List Char × List Char)
deriving DecidableEq

/-- The candidate names probed through which (src/lib.rs line 207). -/
def which_candidates : List (List Char) :=
  ["python3.11".data, "python3.12".data]

/-- The fixed fallback candidate list (src/lib.rs lines 231-240). -/
def python_candidates : List (List Char) :=
  ["/opt/homebrew/bin/python3.11".data,
   "/opt/homebrew/bin/python3.12".data,
   "/usr/local/bin/python3.11".data,
   "/usr/local/bin/python3.12".data,
   "python3.11".data,
   "python3.12".data,
   "python3".data,
   "python".data]

/-- The error message built at src/lib.rs lines 265-275: the fixed text
with the comma-joined fallback candidate list spliced in. -/
def discoveryErrMsg : List Char :=
  ("Python 3.11 or 3.12 not found in any of these locations: ".data) ++
  List.intercalate (", ".data) python_candidates ++
  (". \n\nSerena requires Python 3.11 OR 3.12 (either version works).\n\nTo fix this issue:\n1. Install Python 3.11: brew install python@3.11\n2. Or install Python 3.12: brew install python@3.12  \n3. Or specify custom path in Zed settings: \x7b\"python_executable\": \"/path/to/python3.11\"\x7d".data)

/-- The per-candidate body of the which phase of find_python_executable
(src/lib.rs lines 210-227): spawn which on the candidate name; on a
successful spawn and exit take the trimmed output, require it non-empty
and validated, probe it for its version and accept on a successful,
matching probe.  Every failure mode falls through to none (in the
source: to the next loop iteration). -/
def which_accept (sys : Sys) (c : List Char) : Option (List Char) :=
  match sys.which c with
  | some out =>
    if out.success then
      if rustTrim out.stdout ≠ [] ∧ validate_python_path (rustTrim out.stdout) then
        match sys.probe (rustTrim out.stdout) with
        | some vout =>
          if vout.success ∧ is_valid_python_version vout.stdout then
            some (rustTrim out.stdout)
          else none
        | none => none
      else none
    else none
  | none => none

/-- The which-phase loop (src/lib.rs lines 209-228): first accepted
candidate wins. -/
def tryWhich (sys : Sys) : List (List Char) → Option (List Char)
  | [] => none
  | c :: rest =>
    match which_accept sys c with
    | some p => some p
    | none => tryWhich sys rest

/-- The per-candidate body of the fallback phase (src/lib.rs lines
243-261): require validation, probe for the version, and accept the
candidate itself on a successful matching probe; spawn failures,
abnormal exits and version mismatches fall through to none (in the
source: to the next loop iteration). -/
def fallback_accept (sys : Sys) (c : List Char) : Option (List Char) :=
  if validate_python_path c then
    match sys.probe c with
    | some out =>
      if out.success ∧ is_valid_python_version out.stdout then some c
      else none
    | none => none
  else none

/-- The fallback-phase loop (src/lib.rs lines 242-262): first accepted
candidate wins. -/
def tryFallback (sys : Sys) : List (List Char) → Option (List Char)
  | [] => none
  | c :: rest =>
    match fallback_accept sys c with
    | some p => some p
    | none => tryFallback sys rest

/-- find_python_executable from src/lib.rs lines 205-276: the which phase
over the two bare names, then the fallback list, then the aggregate
error. -/
def find_python_executable (sys : Sys) : Except (List Char) (List Char) :=
  match tryWhich sys which_candidates with
  | some p => .ok p
  | none =>
    match tryFallback sys python_candidates with
    | some p => .ok p
    | none => .error discoveryErrMsg

/-- The interpreter-selection step of context_server_command (src/lib.rs
lines 41-48): a present python_executable override is used as is
(unwrap_or_default of a present value is the value); otherwise
discovery runs. -/
def resolve_python_exe (sys : Sys) (st : Option SerenaContextServerSettings) :
    Except (List Char) (List Char) :=
  match st with
  | some s =>
    match s.python_executable with
    | some p => .ok p
    | none => find_python_executable sys
  | none => find_python_executable sys

/-- The environment list built at src/lib.rs lines 59-66: the settings
map's entries as its iterator yields them, or empty when absent. -/
def env_vars_of (sys : Sys) (st : Option SerenaContextServerSettings) :
    List (List Char × List Char) :=
  match st with
  | some s =>
    match s.environment with
    | some m => sys.hashIter m
    | none => []
  | none => []

/-- The settings map's entries in configuration-source order (for
comparison with the synthesized environment list). -/
def env_entries (st : Option SerenaContextServerSettings) :
    List (List Char × List Char) :=
  match st with
  | some s =>
    match s.environment with
    | some m => m
    | none => []
  | none => []

/-- context_server_command from src/lib.rs lines 27-101, after settings
parsing: resolve the interpreter (override or discovery), reject an
empty path, sanitize for Windows, locate the parent directory, then
choose the serena console script next to the interpreter when it exists
and module invocation otherwise.  The environment list is pure, so
building it is expressed by env_vars_of in each success branch. -/
def context_server_command (sys : Sys) (st : Option SerenaContextServerSettings) :
    Except (List Char) Command :=
  match resolve_python_exe sys st with
  | .error e => .error e
  | .ok python_exe =>
    if python_exe = [] then .error ("Python executable path cannot be empty".data)
    else
      match rustParent (sanitize_windows_path sys.os python_exe) with
      | none => .error ("Could not determine Python directory".data)
      | some python_dir =>
        if sys.fileExists (rustJoin python_dir ("serena".data)) then
          .ok ⟨rustJoin python_dir ("serena".data),
               ["start-mcp-server".data],
               env_vars_of sys st⟩
        else
          .ok ⟨sanitize_windows_path sys.os python_exe,
               ["-m".data, "serena".data, "start-mcp-server".data],
               env_vars_of sys st⟩

/-- A system on which every spawn fails and no file exists. -/
def sysNone : Sys :=
  ⟨Os.linux, fun _ => none, fun _ => none, fun _ => false, fun l => l⟩

/-- A system on which both preferred bare names resolve through which to
distinct, validated interpreters of the matching minor versions. -/
def sysBoth : Sys :=
  ⟨Os.linux,
   fun c =>
     if c = ("python3.11".data) then some ⟨true, "/a/python3.11\n".data⟩
     else if c = ("python3.12".data) then some ⟨true, "/b/python3.12\n".data⟩
     else none,
   fun p =>
     if p = ("/a/python3.11".data) then some ⟨true, "Python 3.11.9\n".data⟩
     else if p = ("/b/python3.12".data) then some ⟨true, "Python 3.12.1\n".data⟩
     else none,
   fun _ => false,
   fun l => l⟩

/-- A system whose settings map iterates its two entries in the order
opposite to the configuration source (one of the orders a
std::collections::HashMap with an arbitrarily seeded hasher can
produce). -/
def sysRev : Sys :=
  ⟨Os.linux, fun _ => none, fun _ => none, fun _ => false, List.reverse⟩

/-- Settings with an interpreter override and two environment entries in
configuration-source order. -/
def sEnvRev : SerenaContextServerSettings :=
  ⟨some ("/usr/bin/python3.11".data),
   some [("A".data, "1".data), ("B".data, "2".data)]⟩

/-- sysNone with spawn oracles that answer; its os, fileExists and
hashIter fields are those of sysNone. -/
def sysProbe : Sys :=
  { sysNone with
    which := fun _ => some ⟨true, "/usr/bin/python3\n".data⟩,
    probe := fun _ => some ⟨true, "Python 3.12.0\n".data⟩ }

/-- A system on which exactly the serena console script next to
/usr/bin/python3.11 exists. -/
def sysFE : Sys :=
  ⟨Os.linux, fun _ => none, fun _ => none,
   fun q => decide (q = ("/usr/bin/serena".data)), fun l => l⟩

/-- Settings selecting /usr/bin/python3.11 with no extra environment. -/
def stFE : Option SerenaContextServerSettings :=
  some ⟨some ("/usr/bin/python3.11".data), none⟩

/-- strStartsWith holds exactly when the pattern is a list prefix. -/
theorem strStartsWith_iff (s p : List Char) : strStartsWith s p = true ↔ p <+: s := by
  induction s generalizing p with
  | nil =>
    cases p with
    | nil => simp [strStartsWith]
    | cons d ds => simp [strStartsWith]
  | cons c cs ih =>
    cases p with
    | nil => simp [strStartsWith]
    | cons d ds =>
      rw [show strStartsWith (c :: cs) (d :: ds) = (c == d && strStartsWith cs ds) from rfl,
        Bool.and_eq_true, beq_iff_eq, ih, List.cons_prefix_cons]
      exact ⟨fun ⟨a, b⟩ => ⟨a.symm, b⟩, fun ⟨a, b⟩ => ⟨a.symm, b⟩⟩

/-- strContains holds exactly when the pattern is a contiguous sublist. -/
theorem strContains_iff (s p : List Char) : strContains s p = true ↔ p <:+: s := by
  induction s with
  | nil => cases p <;> simp [strContains, List.infix_nil, List.isEmpty]
  | cons c cs ih =>
    simp [strContains, Bool.or_eq_true, strStartsWith_iff, ih, List.infix_cons_iff]

/-- stripPfx succeeds exactly on prefixes and returns the remainder. -/
theorem stripPfx_eq (p s : List Char) :
    stripPfx p s = if strStartsWith s p then some (s.drop p.length) else none := by
  induction p generalizing s with
  | nil => cases s <;> simp [stripPfx, strStartsWith]
  | cons d ds ih =>
    cases s with
    | nil => simp [stripPfx, strStartsWith]
    | cons c cs =>
      by_cases h : d = c
      · subst h
        simp [stripPfx, strStartsWith, ih]
      · have hb : (c == d) = false := beq_eq_false_iff_ne.mpr (fun hc => h hc.symm)
        simp [stripPfx, strStartsWith, h, hb]

/-- No string starts with both accepted version prefixes: they have the
same length but differ. -/
theorem not_both_version_prefixes (t : List Char)
    (h11 : strStartsWith t ("Python 3.11".data) = true)
    (h12 : strStartsWith t ("Python 3.12".data) = true) : False := by
  obtain ⟨r1, hr1⟩ := (strStartsWith_iff t _).mp h11
  obtain ⟨r2, hr2⟩ := (strStartsWith_iff t _).mp h12
  have h := hr1.trans hr2.symm
  have := (List.append_inj h (by decide)).1
  exact absurd this (by decide)

/-- Splitting never produces an empty piece list. -/
theorem splitOnSlash_ne_nil (l : List Char) : splitOnSlash l ≠ [] := by
  cases l with
  | nil => simp [splitOnSlash]
  | cons c cs =>
    rw [splitOnSlash]
    by_cases h : c = '/'
    · simp [h]
    · rw [if_neg h]
      cases splitOnSlash cs <;> simp

/-- A separator-free string splits into the single piece that is the
string itself. -/
theorem splitOnSlash_no_sep (p : List Char) (h : '/' ∉ p) : splitOnSlash p = [p] := by
  induction p with
  | nil => rfl
  | cons c cs ih =>
    by_cases hc : c = '/'
    · subst hc; simp at h
    · rw [splitOnSlash, if_neg hc,
        ih (fun hm => h (List.mem_cons_of_mem c hm))]

/-- When the first piece of a split is empty, the string is empty or
starts with the separator. -/
theorem splitOnSlash_head_nil (cs : List Char) (rest : List (List Char))
    (h : splitOnSlash cs = [] :: rest) : cs = [] ∨ ∃ ds, cs = '/' :: ds := by
  cases cs with
  | nil => exact Or.inl rfl
  | cons d ds =>
    by_cases hd : d = '/'
    · exact Or.inr ⟨ds, by rw [hd]⟩
    · exfalso
      rw [splitOnSlash, if_neg hd] at h
      rcases hsp : splitOnSlash ds with _ | ⟨a, r⟩
      · exact splitOnSlash_ne_nil ds hsp
      · rw [hsp] at h
        cases h

/-- A non-empty, separator-free path has the empty parent (Rust:
Path::new("python3").parent() is Some("")). -/
theorem rustParent_bare (p : List Char) (hne : p ≠ []) (h : '/' ∉ p) :
    rustParent p = some [] := by
  have hsplit := splitOnSlash_no_sep p h
  have habs : pathAbsolute p = false := by
    cases p with
    | nil => exact absurd rfl hne
    | cons c cs =>
      have hc : c ≠ '/' := fun hc => h (hc ▸ List.mem_cons_self c cs)
      simp [pathAbsolute, hc]
  by_cases hdot : p = ['.']
  · subst hdot; rfl
  · have htake : ¬ p.take 2 = ['.', '/'] := by
      intro ht
      exact h (List.take_subset 2 p (ht ▸ (by simp : '/' ∈ (['.', '/'] : List Char))))
    have hcomps : pathComps p = [p] := by
      rw [pathComps, hsplit]
      simp [hne, hdot]
    have hcur : pathHasCurDir p = false := by
      simp [pathHasCurDir, habs, hdot, htake]
    rw [rustParent, hcomps]
    show some (renderPath (pathAbsolute p) (pathHasCurDir p) (List.dropLast [p])) = some []
    rw [habs, hcur]
    rfl

/-- Sanitization does not change a path without a leading separator. -/
theorem sanitize_no_lead (os : Os) (p : List Char) (h : p.head? ≠ some '/') :
    sanitize_windows_path os p = p := by
  cases os with
  | mac => rfl
  | linux => rfl
  | windows =>
    cases p with
    | nil => rfl
    | cons c cs =>
      have hc : ¬ c = '/' := fun hc => h (by rw [hc]; rfl)
      simp [sanitize_windows_path, List.dropWhile_cons, hc]

/-- The parent of the empty path is none. -/
theorem rustParent_nil : rustParent [] = none := rfl

/-- When a non-empty path has no parent, it begins with the separator
and every piece of its split is empty or a lone dot: it denotes the
root directory. -/
theorem rustParent_none_root (p : List Char) (hne : p ≠ []) (h : rustParent p = none) :
    p.head? = some '/' ∧ ∀ c ∈ splitOnSlash p, c = [] ∨ c = ['.'] := by
  rw [rustParent] at h
  rcases hl : (pathComps p).getLast? with _ | a
  · rw [hl] at h
    have hcur : pathHasCurDir p = false := by
      by_cases hc : pathHasCurDir p = true
      · rw [if_pos hc] at h; simp at h
      · simpa using hc
    have hcomps : pathComps p = [] := List.getLast?_eq_none_iff.mp hl
    have hall : ∀ x ∈ splitOnSlash p, x = [] ∨ x = ['.'] := by
      intro x hx
      have hx2 := List.filter_eq_nil_iff.mp hcomps x hx
      simp only [decide_eq_true_eq, not_and_or, not_not] at hx2
      exact hx2
    refine ⟨?_, hall⟩
    cases p with
    | nil => exact absurd rfl hne
    | cons c cs =>
      by_cases hc2 : c = '/'
      · rw [hc2]; rfl
      · exfalso
        rcases hsp : splitOnSlash cs with _ | ⟨a, r⟩
        · exact splitOnSlash_ne_nil cs hsp
        · have hmem : (c :: a) ∈ splitOnSlash (c :: cs) := by
            rw [splitOnSlash, if_neg hc2, hsp]
            exact List.mem_cons_self _ _
          rcases hall (c :: a) hmem with h1 | h1
          · simp at h1
          · have hcd : c = '.' := by injection h1
            have had : a = [] := by injection h1
            subst hcd
            rcases splitOnSlash_head_nil cs r (had ▸ hsp) with h2 | ⟨ds, h2⟩
            · subst h2
              exact absurd hcur (by decide)
            · subst h2
              have hcd2 : pathHasCurDir ('.' :: '/' :: ds) = true := rfl
              rw [hcd2] at hcur
              exact absurd hcur (by decide)
  · rw [hl] at h
    simp at h

/-- Joining a non-empty child never yields the empty string. -/
theorem rustJoin_ne_nil (base child : List Char) (h : child ≠ []) :
    rustJoin base child ≠ [] := by
  rw [rustJoin]
  by_cases h1 : pathAbsolute child = true
  · simpa [h1] using h
  · rw [if_neg h1]
    by_cases h2 : base = []
    · simpa [h2] using h
    · rw [if_neg h2]
      by_cases h3 : base.getLast? = some '/'
      · rw [if_pos h3]
        intro hc
        exact h (List.append_eq_nil.mp hc).2
      · rw [if_neg h3]
        intro hc
        cases (List.append_eq_nil.mp hc).2

/-- An accepted which-phase candidate is non-empty and validated. -/
theorem which_accept_props (sys : Sys) (c p : List Char)
    (h : which_accept sys c = some p) : p ≠ [] ∧ validate_python_path p = true := by
  rw [which_accept] at h
  rcases hw : sys.which c with _ | out
  · simp only [hw] at h
    exact Option.noConfusion h
  · simp only [hw] at h
    by_cases hs : out.success = true
    · rw [if_pos hs] at h
      by_cases hv : rustTrim out.stdout ≠ [] ∧ validate_python_path (rustTrim out.stdout) = true
      · rw [if_pos hv] at h
        rcases hpr : sys.probe (rustTrim out.stdout) with _ | vout
        · simp only [hpr] at h
          exact Option.noConfusion h
        · simp only [hpr] at h
          by_cases hok : vout.success = true ∧ is_valid_python_version vout.stdout = true
          · rw [if_pos hok] at h
            cases h
            exact hv
          · rw [if_neg hok] at h; cases h
      · rw [if_neg hv] at h; cases h
    · rw [if_neg hs] at h; cases h

/-- An accepted fallback candidate is the candidate itself and is
validated. -/
theorem fallback_accept_props (sys : Sys) (c p : List Char)
    (h : fallback_accept sys c = some p) : p = c ∧ validate_python_path c = true := by
  rw [fallback_accept] at h
  by_cases hv : validate_python_path c = true
  · rw [if_pos hv] at h
    rcases hpr : sys.probe c with _ | out
    · simp only [hpr] at h
      exact Option.noConfusion h
    · simp only [hpr] at h
      by_cases hok : out.success = true ∧ is_valid_python_version out.stdout = true
      · rw [if_pos hok] at h
        cases h
        exact ⟨rfl, hv⟩
      · rw [if_neg hok] at h; cases h
  · rw [if_neg hv] at h; cases h

/-- The which loop only returns accepted candidates. -/
theorem tryWhich_some (sys : Sys) (cs : List (List Char)) (p : List Char)
    (h : tryWhich sys cs = some p) : ∃ c ∈ cs, which_accept sys c = some p := by
  induction cs with
  | nil => cases h
  | cons c rest ih =>
    rw [tryWhich] at h
    rcases ha : which_accept sys c with _ | q
    · rw [ha] at h
      obtain ⟨d, hd, hacc⟩ := ih h
      exact ⟨d, List.mem_cons_of_mem c hd, hacc⟩
    · rw [ha] at h
      cases h
      exact ⟨c, List.mem_cons_self c rest, ha⟩

/-- The fallback loop only returns accepted candidates. -/
theorem tryFallback_some (sys : Sys) (cs : List (List Char)) (p : List Char)
    (h : tryFallback sys cs = some p) : ∃ c ∈ cs, fallback_accept sys c = some p := by
  induction cs with
  | nil => cases h
  | cons c rest ih =>
    rw [tryFallback] at h
    rcases ha : fallback_accept sys c with _ | q
    · rw [ha] at h
      obtain ⟨d, hd, hacc⟩ := ih h
      exact ⟨d, List.mem_cons_of_mem c hd, hacc⟩
    · rw [ha] at h
      cases h
      exact ⟨c, List.mem_cons_self c rest, ha⟩

/-- Every interpreter discovery returns passes validate_python_path; in
particular it is non-empty. -/
theorem find_ok_validate (sys : Sys) (p : List Char)
    (h : find_python_executable sys = .ok p) :
    validate_python_path p = true ∧ p ≠ [] := by
  rw [find_python_executable] at h
  rcases hw : tryWhich sys which_candidates with _ | q
  · rw [hw] at h
    rcases hf : tryFallback sys python_candidates with _ | q
    · rw [hf] at h; cases h
    · rw [hf] at h
      cases h
      obtain ⟨c, -, hacc⟩ := tryFallback_some sys _ _ hf
      obtain ⟨hpc, hval⟩ := fallback_accept_props sys c _ hacc
      subst hpc
      refine ⟨hval, ?_⟩
      intro hnil
      rw [hnil] at hval
      cases hval
  · rw [hw] at h
    cases h
    obtain ⟨c, -, hacc⟩ := tryWhich_some sys _ _ hw
    obtain ⟨hne, hval⟩ := which_accept_props sys c _ hacc
    exact ⟨hval, hne⟩

/-- Elimination form for a successful synthesis: the resolved
interpreter, its parent directory, and the two branch shapes. -/
theorem cscmd_ok_elim (sys : Sys) (st : Option SerenaContextServerSettings)
    (cmd : Command) (h : context_server_command sys st = .ok cmd) :
    ∃ p d, resolve_python_exe sys st = .ok p ∧ p ≠ [] ∧
      rustParent (sanitize_windows_path sys.os p) = some d ∧
      ((sys.fileExists (rustJoin d ("serena".data)) = true ∧
        cmd = ⟨rustJoin d ("serena".data), ["start-mcp-server".data],
               env_vars_of sys st⟩) ∨
       (sys.fileExists (rustJoin d ("serena".data)) = false ∧
        cmd = ⟨sanitize_windows_path sys.os p,
               ["-m".data, "serena".data, "start-mcp-server".data],
               env_vars_of sys st⟩)) := by
  rw [context_server_command] at h
  rcases hres : resolve_python_exe sys st with e | p
  · simp only [hres] at h
    exact Except.noConfusion h
  · simp only [hres] at h
    by_cases hp : p = []
    · rw [if_pos hp] at h; cases h
    · rw [if_neg hp] at h
      rcases hpar : rustParent (sanitize_windows_path sys.os p) with _ | d
      · simp only [hpar] at h
        exact Except.noConfusion h
      · simp only [hpar] at h
        by_cases hfe : sys.fileExists (rustJoin d ("serena".data)) = true
        · rw [if_pos hfe] at h
          cases h
          exact ⟨p, d, rfl, hp, hpar, Or.inl ⟨hfe, rfl⟩⟩
        · rw [if_neg hfe] at h
          cases h
          exact ⟨p, d, rfl, hp, hpar,
            Or.inr ⟨Bool.not_eq_true _ ▸ hfe, rfl⟩⟩

/-- Claim C1, counterexample: the claim accepts any whitespace character
after the version prefix, but on "Python 3.11" followed by a tab the
code rejects while the claimed predicate accepts (the code only accepts
a dot or a space there). -/
theorem version_matcher_cex :
    is_valid_python_version ("Python 3.11\tx".data) = false ∧
    claimed_version_pred ("Python 3.11\tx".data) = true :=
  ⟨rfl, rfl⟩

/-- Claim C1, amended: is_valid_python_version accepts a string exactly
when its trimmed form starts with "Python 3.11" or "Python 3.12" and the
character immediately following the prefix, if any, is a dot or a space;
the claim's example inputs behave as listed. -/
theorem version_matcher_amended :
    (∀ s : List Char, is_valid_python_version s = amended_version_pred s) ∧
    is_valid_python_version ("Python 3.11.7".data) = true ∧
    is_valid_python_version ("Python 3.11".data) = true ∧
    is_valid_python_version ("Python 3.12 (main, build info)".data) = true ∧
    is_valid_python_version ("Python 3.110.0".data) = false ∧
    is_valid_python_version ("Python 3.9.0".data) = false ∧
    is_valid_python_version ("Python 3.13.0".data) = false := by
  refine ⟨?_, rfl, rfl, rfl, rfl, rfl, rfl⟩
  intro s
  rw [is_valid_python_version, amended_version_pred, stripPfx_eq, stripPfx_eq]
  by_cases h11 : strStartsWith (rustTrim s) ("Python 3.11".data) = true
  · have h12 : strStartsWith (rustTrim s) ("Python 3.12".data) = false := by
      by_cases h : strStartsWith (rustTrim s) ("Python 3.12".data) = true
      · exact (not_both_version_prefixes _ h11 h).elim
      · simpa using h
    simp [h11, h12]
  · have h11f : strStartsWith (rustTrim s) ("Python 3.11".data) = false := by
      simpa using h11
    by_cases h12 : strStartsWith (rustTrim s) ("Python 3.12".data) = true
    · simp [h11f, h12]
    · have h12f : strStartsWith (rustTrim s) ("Python 3.12".data) = false := by
        simpa using h12
      simp [h11f, h12f]

/-- Claim C2: validate_python_path rejects every empty, over-long,
NUL-containing, traversal or doubled-separator string, and on strings
free of those defects it accepts exactly the strings whose lowercase
form contains "python" or starts with the trusted roots /usr/ or /opt/
(the comparison is performed on the lowercased path). -/
theorem path_validator_spec :
    (∀ s : List Char,
      s = [] ∨ 1000 ≤ s.length ∨ '\x00' ∈ s ∨ ("..".data) <:+: s ∨ ("//".data) <:+: s →
      validate_python_path s = false) ∧
    (∀ s : List Char, s ≠ [] → s.length < 1000 → '\x00' ∉ s →
      ¬ ("..".data) <:+: s → ¬ ("//".data) <:+: s →
      (validate_python_path s = true ↔
        ("python".data) <:+: rustToLower s ∨
        ("/usr/".data) <+: rustToLower s ∨
        ("/opt/".data) <+: rustToLower s)) := by
  constructor
  · intro s h
    rw [validate_python_path]
    by_cases hA : s = [] ∨ 1000 ≤ s.length ∨ '\x00' ∈ s
    · rw [if_pos hA]
    · rw [if_neg hA]
      rcases h with h | h | h | h | h
      · exact absurd (Or.inl h) hA
      · exact absurd (Or.inr (Or.inl h)) hA
      · exact absurd (Or.inr (Or.inr h)) hA
      · have hc : strContains s ("..".data) = true := (strContains_iff _ _).mpr h
        simp [hc]
      · have hc : strContains s ("//".data) = true := (strContains_iff _ _).mpr h
        simp [hc]
  · intro s h1 h2 h3 h4 h5
    rw [validate_python_path,
      if_neg (by
        rintro (hc | hc | hc)
        · exact h1 hc
        · exact absurd hc (not_le.mpr h2)
        · exact h3 hc),
      if_neg (by
        rw [Bool.or_eq_true]
        rintro (hc | hc)
        · exact h4 ((strContains_iff _ _).mp hc)
        · exact h5 ((strContains_iff _ _).mp hc))]
    simp [Bool.or_eq_true, strContains_iff, strStartsWith_iff]
    exact or_assoc

/-- Witness for claim C2 at concrete inputs: a traversal string is
rejected even though defect-free acceptance would not apply, and a
defect-free trusted path containing python is accepted. -/
theorem path_validator_spec_witness :
    validate_python_path ("a..b".data) = false ∧
    validate_python_path ("/usr/bin/python3.11".data) = true :=
  ⟨path_validator_spec.1 ("a..b".data)
     (Or.inr (Or.inr (Or.inr (Or.inl (by decide))))),
   (path_validator_spec.2 ("/usr/bin/python3.11".data) (by decide) (by decide)
     (by decide) (by decide) (by decide)).mpr (Or.inl (by decide))⟩

/-- Claim C9: sanitize_windows_path is the identity on Mac and Linux;
on Windows it strips leading separator characters and leaves paths
without a leading separator unchanged. -/
theorem sanitize_platform_spec :
    (∀ p : List Char, sanitize_windows_path Os.mac p = p) ∧
    (∀ p : List Char, sanitize_windows_path Os.linux p = p) ∧
    (∀ p : List Char,
      sanitize_windows_path Os.windows ('/' :: p) = sanitize_windows_path Os.windows p) ∧
    (∀ p : List Char, p.head? ≠ some '/' → sanitize_windows_path Os.windows p = p) := by
  refine ⟨fun p => rfl, fun p => rfl, fun p => ?_,
    fun p h => sanitize_no_lead Os.windows p h⟩
  simp [sanitize_windows_path, List.dropWhile_cons]

/-- Witness for claim C9 at concrete inputs. -/
theorem sanitize_platform_spec_witness :
    sanitize_windows_path Os.mac ("/x".data) = ("/x".data) ∧
    sanitize_windows_path Os.windows ("x".data) = ("x".data) :=
  ⟨sanitize_platform_spec.1 ("/x".data),
   sanitize_platform_spec.2.2.2 ("x".data) (by decide)⟩

/-- The built environment list only depends on the settings and on the
map-iteration oracle. -/
theorem env_vars_of_congr (sys₁ sys₂ : Sys) (st : Option SerenaContextServerSettings)
    (h : sys₁.hashIter = sys₂.hashIter) : env_vars_of sys₁ st = env_vars_of sys₂ st := by
  rcases st with _ | s
  · rfl
  · rw [env_vars_of, env_vars_of]
    rcases s.environment with _ | m
    · rfl
    · rw [h]

/-- Claim C3: with a present, non-empty python_executable override the
synthesized command is derived from the override alone: the result does
not depend on the which or probe oracles (so neither validate_python_path
nor the version probe and matcher is consulted for it), and when a
command is produced its executable is built from the override path. -/
theorem override_bypasses_validation (sys₁ sys₂ : Sys)
    (s : SerenaContextServerSettings) (p : List Char)
    (hp : s.python_executable = some p) (_hne : p ≠ [])
    (hos : sys₁.os = sys₂.os) (hfe : sys₁.fileExists = sys₂.fileExists)
    (hhi : sys₁.hashIter = sys₂.hashIter) :
    context_server_command sys₁ (some s) = context_server_command sys₂ (some s) ∧
    (∀ cmd : Command, context_server_command sys₁ (some s) = .ok cmd →
      ∃ d, rustParent (sanitize_windows_path sys₁.os p) = some d ∧
        (cmd.command = rustJoin d ("serena".data) ∨
         cmd.command = sanitize_windows_path sys₁.os p)) := by
  have hres₁ : resolve_python_exe sys₁ (some s) = .ok p := by
    simp [resolve_python_exe, hp]
  have hres₂ : resolve_python_exe sys₂ (some s) = .ok p := by
    simp [resolve_python_exe, hp]
  constructor
  · simp only [context_server_command, hres₁, hres₂, hos, hfe,
      env_vars_of_congr sys₁ sys₂ (some s) hhi]
  · intro cmd hok
    obtain ⟨q, d, hq, hqne, hd, hcase⟩ := cscmd_ok_elim sys₁ (some s) cmd hok
    have hqp : p = q := Except.ok.inj (hres₁.symm.trans hq)
    subst hqp
    rcases hcase with ⟨-, hcmd⟩ | ⟨-, hcmd⟩
    · subst hcmd
      exact ⟨d, hd, Or.inl rfl⟩
    · subst hcmd
      exact ⟨d, hd, Or.inr rfl⟩

/-- Witness for claim C3: the override ../evil fails validate_python_path
yet is used verbatim; two systems differing only in their spawn oracles
synthesize the same command. -/
theorem override_bypasses_validation_witness :
    validate_python_path ("../evil".data) = false ∧
    context_server_command sysNone (some ⟨some ("../evil".data), none⟩) =
      context_server_command sysProbe (some ⟨some ("../evil".data), none⟩) ∧
    context_server_command sysNone (some ⟨some ("../evil".data), none⟩) =
      .ok ⟨"../evil".data, ["-m".data, "serena".data, "start-mcp-server".data], []⟩ :=
  ⟨by decide,
   (override_bypasses_validation sysNone sysProbe ⟨some ("../evil".data), none⟩
      ("../evil".data) rfl (by decide) rfl rfl rfl).1,
   rfl⟩

/-- Claim C4: an empty python_executable override yields the empty-path
error rather than a command, and every successfully synthesized command
has a non-empty executable. -/
theorem synthesized_executable_nonempty :
    (∀ (sys : Sys) (s : SerenaContextServerSettings),
      s.python_executable = some [] →
      context_server_command sys (some s) =
        .error ("Python executable path cannot be empty".data)) ∧
    (∀ (sys : Sys) (st : Option SerenaContextServerSettings) (cmd : Command),
      context_server_command sys st = .ok cmd → cmd.command ≠ []) := by
  constructor
  · intro sys s hp
    simp [context_server_command, resolve_python_exe, hp]
  · intro sys st cmd h
    obtain ⟨p, d, -, hp, hd, hcase⟩ := cscmd_ok_elim sys st cmd h
    rcases hcase with ⟨-, hcmd⟩ | ⟨-, hcmd⟩
    · subst hcmd
      exact rustJoin_ne_nil d ("serena".data) (by decide)
    · subst hcmd
      intro hnil
      rw [show (⟨sanitize_windows_path sys.os p,
          ["-m".data, "serena".data, "start-mcp-server".data],
          env_vars_of sys st⟩ : Command).command
        = sanitize_windows_path sys.os p from rfl] at hnil
      rw [hnil, rustParent_nil] at hd
      exact Option.noConfusion hd

/-- Witness for claim C4: the empty override errors, and a concrete
successful synthesis has a non-empty executable. -/
theorem synthesized_executable_nonempty_witness :
    context_server_command sysNone (some ⟨some [], none⟩) =
      .error ("Python executable path cannot be empty".data) ∧
    (⟨"/usr/bin/serena".data, ["start-mcp-server".data], []⟩ : Command).command ≠ [] :=
  ⟨synthesized_executable_nonempty.1 sysNone ⟨some [], none⟩ rfl,
   synthesized_executable_nonempty.2 sysFE stFE
     ⟨"/usr/bin/serena".data, ["start-mcp-server".data], []⟩ rfl⟩

/-- Claim C5: for a resolved non-empty interpreter with parent directory
d, the synthesized executable is the serena console script next to the
interpreter with the single server-start token when that script exists,
and the interpreter itself with the module-invocation argument vector
when it does not. -/
theorem launch_strategy_spec (sys : Sys) (st : Option SerenaContextServerSettings)
    (p d : List Char)
    (hres : resolve_python_exe sys st = .ok p) (hp : p ≠ [])
    (hd : rustParent (sanitize_windows_path sys.os p) = some d) :
    (sys.fileExists (rustJoin d ("serena".data)) = true →
      context_server_command sys st =
        .ok ⟨rustJoin d ("serena".data), ["start-mcp-server".data],
             env_vars_of sys st⟩) ∧
    (sys.fileExists (rustJoin d ("serena".data)) = false →
      context_server_command sys st =
        .ok ⟨sanitize_windows_path sys.os p,
             ["-m".data, "serena".data, "start-mcp-server".data],
             env_vars_of sys st⟩) := by
  constructor <;> intro hfe <;> simp [context_server_command, hres, hp, hd, hfe]

/-- Witness for claim C5: with the serena script present next to the
configured interpreter, the script is chosen with the start token. -/
theorem launch_strategy_spec_witness :
    context_server_command sysFE stFE =
      .ok ⟨"/usr/bin/serena".data, ["start-mcp-server".data], []⟩ :=
  (launch_strategy_spec sysFE stFE ("/usr/bin/python3.11".data) ("/usr/bin".data)
    rfl (by decide) rfl).1 rfl

/-- Claim C6, amended: discovery tries the which phase over the two bare
names python3.11 then python3.12 (oldest first, not most-recent first),
then the fixed fallback list, applying validate, probe and version match
per candidate, and the first accepted candidate wins immediately. -/
theorem discovery_order_amended :
    which_candidates = ["python3.11".data, "python3.12".data] ∧
    python_candidates =
      ["/opt/homebrew/bin/python3.11".data, "/opt/homebrew/bin/python3.12".data,
       "/usr/local/bin/python3.11".data, "/usr/local/bin/python3.12".data,
       "python3.11".data, "python3.12".data, "python3".data, "python".data] ∧
    (∀ (sys : Sys) (p : List Char), tryWhich sys which_candidates = some p →
      find_python_executable sys = .ok p) ∧
    (∀ (sys : Sys) (p : List Char), tryWhich sys which_candidates = none →
      tryFallback sys python_candidates = some p →
      find_python_executable sys = .ok p) ∧
    (∀ (sys : Sys) (c : List Char) (rest : List (List Char)) (p : List Char),
      which_accept sys c = some p → tryWhich sys (c :: rest) = some p) ∧
    (∀ (sys : Sys) (c : List Char) (rest : List (List Char)) (p : List Char),
      fallback_accept sys c = some p → tryFallback sys (c :: rest) = some p) := by
  refine ⟨rfl, rfl, ?_, ?_, ?_, ?_⟩
  · intro sys p h
    rw [find_python_executable, h]
  · intro sys p h1 h2
    rw [find_python_executable, h1, h2]
  · intro sys c rest p h
    rw [tryWhich, h]
  · intro sys c rest p h
    rw [tryFallback, h]

/-- Claim C6, counterexample: on a system where both preferred bare
names resolve through which to acceptable interpreters of the matching
versions, discovery returns the python3.11 result even though the
python3.12 candidate alone would also be accepted, refuting the
most-recent-first order. -/
theorem discovery_order_cex :
    find_python_executable sysBoth = .ok ("/a/python3.11".data) ∧
    tryWhich sysBoth [("python3.12".data)] = some ("/b/python3.12".data) ∧
    ("/a/python3.11".data) ≠ ("/b/python3.12".data) :=
  ⟨rfl, rfl, by decide⟩

/-- Claim C7, amended: synthesis is a pure function of the configuration
and the system state, so equal inputs give identical output; the env
list of a synthesized command is the settings map's entries in the order
the map's iterator yields them, which is a permutation of the
configuration-source entries but not necessarily their insertion
order. -/
theorem synthesis_pure_env_perm :
    (∀ (sys₁ sys₂ : Sys) (st₁ st₂ : Option SerenaContextServerSettings),
      sys₁ = sys₂ → st₁ = st₂ →
      context_server_command sys₁ st₁ = context_server_command sys₂ st₂) ∧
    (∀ (sys : Sys) (st : Option SerenaContextServerSettings) (cmd : Command),
      (∀ l, (sys.hashIter l).Perm l) →
      context_server_command sys st = .ok cmd →
      cmd.env.Perm (env_entries st)) := by
  constructor
  · intro sys₁ sys₂ st₁ st₂ h1 h2
    rw [h1, h2]
  · intro sys st cmd hperm hok
    have henv : (env_vars_of sys st).Perm (env_entries st) := by
      rcases st with _ | s
      · exact List.Perm.refl _
      · rw [env_vars_of, env_entries]
        rcases s.environment with _ | m
        · exact List.Perm.refl _
        · exact hperm m
    obtain ⟨p, d, -, -, -, hcase⟩ := cscmd_ok_elim sys st cmd hok
    rcases hcase with ⟨-, hcmd⟩ | ⟨-, hcmd⟩ <;> subst hcmd <;> exact henv

/-- Claim C7, counterexample: with the two environment entries inserted
as A then B and a map iterator that yields them reversed (an order a
std HashMap can produce), the synthesized env list is B then A, not the
configuration-source insertion order. -/
theorem env_order_cex :
    context_server_command sysRev (some sEnvRev) =
      .ok ⟨"/usr/bin/python3.11".data,
           ["-m".data, "serena".data, "start-mcp-server".data],
           [("B".data, "2".data), ("A".data, "1".data)]⟩ ∧
    env_entries (some sEnvRev) = [("A".data, "1".data), ("B".data, "2".data)] ∧
    ([("B".data, "2".data), ("A".data, "1".data)] : List (List Char × List Char)) ≠
      [("A".data, "1".data), ("B".data, "2".data)] :=
  ⟨rfl, rfl, by decide⟩

/-- Witness for claim C7 at a concrete system. -/
theorem synthesis_pure_env_perm_witness :
    context_server_command sysRev (some sEnvRev) =
      context_server_command sysRev (some sEnvRev) ∧
    (⟨"/usr/bin/python3.11".data,
      ["-m".data, "serena".data, "start-mcp-server".data],
      [("B".data, "2".data), ("A".data, "1".data)]⟩ : Command).env.Perm
      (env_entries (some sEnvRev)) :=
  ⟨synthesis_pure_env_perm.1 sysRev sysRev (some sEnvRev) (some sEnvRev) rfl rfl,
   synthesis_pure_env_perm.2 sysRev (some sEnvRev)
     ⟨"/usr/bin/python3.11".data,
      ["-m".data, "serena".data, "start-mcp-server".data],
      [("B".data, "2".data), ("A".data, "1".data)]⟩
     (fun l => List.reverse_perm l) rfl⟩

/-- Claim C8: every per-candidate failure (spawn failure, abnormal exit,
failed validation, version mismatch) makes the discovery loops skip to
the next candidate without surfacing anything; discovery fails only when
both phases accept nothing, and then the single aggregate error names
every fallback candidate and carries remediation guidance. -/
theorem per_candidate_failures_swallowed :
    (∀ (sys : Sys) (c : List Char) (rest : List (List Char)),
      which_accept sys c = none → tryWhich sys (c :: rest) = tryWhich sys rest) ∧
    (∀ (sys : Sys) (c : List Char) (rest : List (List Char)),
      fallback_accept sys c = none → tryFallback sys (c :: rest) = tryFallback sys rest) ∧
    (∀ (sys : Sys) (c : List Char), sys.which c = none → which_accept sys c = none) ∧
    (∀ (sys : Sys) (c : List Char) (out : ProcOutput),
      sys.which c = some out → out.success = false → which_accept sys c = none) ∧
    (∀ (sys : Sys) (c : List Char), validate_python_path c = false →
      fallback_accept sys c = none) ∧
    (∀ (sys : Sys) (c : List Char), sys.probe c = none →
      fallback_accept sys c = none) ∧
    (∀ (sys : Sys) (c : List Char) (out : ProcOutput), sys.probe c = some out →
      out.success = false ∨ is_valid_python_version out.stdout = false →
      fallback_accept sys c = none) ∧
    (∀ (sys : Sys) (e : List Char), find_python_executable sys = .error e →
      tryWhich sys which_candidates = none ∧
      tryFallback sys python_candidates = none ∧
      e = discoveryErrMsg ∧
      (∀ c ∈ python_candidates, c <:+: e) ∧ ("To fix this issue".data) <:+: e) := by
  refine ⟨?_, ?_, ?_, ?_, ?_, ?_, ?_, ?_⟩
  · intro sys c rest h
    rw [tryWhich, h]
  · intro sys c rest h
    rw [tryFallback, h]
  · intro sys c h
    rw [which_accept, h]
  · intro sys c out h hs
    simp [which_accept, h, hs]
  · intro sys c h
    simp [fallback_accept, h]
  · intro sys c h
    simp [fallback_accept, h]
  · intro sys c out h hbad
    rcases hbad with hb | hb <;> simp [fallback_accept, h, hb]
  · intro sys e h
    rw [find_python_executable] at h
    rcases hw : tryWhich sys which_candidates with _ | q
    · simp only [hw] at h
      rcases hf : tryFallback sys python_candidates with _ | q
      · simp only [hf] at h
        have he : discoveryErrMsg = e := Except.error.inj h
        subst he
        refine ⟨rfl, rfl, rfl, ?_, (strContains_iff _ _).mp (by decide)⟩
        intro c hc
        have hb : python_candidates.all
            (fun x => strContains discoveryErrMsg x) = true := by decide
        exact (strContains_iff _ _).mp (List.all_eq_true.mp hb c hc)
      · simp only [hf] at h
        exact Except.noConfusion h
    · simp only [hw] at h
      exact Except.noConfusion h

/-- Witness for claim C8 at concrete candidates on a system where every
spawn fails. -/
theorem per_candidate_failures_swallowed_witness :
    tryFallback sysNone (("python3".data) :: []) = tryFallback sysNone [] ∧
    tryWhich sysNone (("python3.11".data) :: []) = tryWhich sysNone [] ∧
    ("To fix this issue".data) <:+: discoveryErrMsg := by
  have h := per_candidate_failures_swallowed
  exact ⟨h.2.1 sysNone ("python3".data) []
           (h.2.2.2.2.2.1 sysNone ("python3".data) rfl),
         h.1 sysNone ("python3.11".data) []
           (h.2.2.1 sysNone ("python3.11".data) rfl),
         (h.2.2.2.2.2.2.2 sysNone discoveryErrMsg rfl).2.2.2.2⟩

/-- Claim C10: a non-empty bare interpreter name without a separator
never triggers the no-parent-directory error: its parent is the empty
path, so the companion-script probe point is the relative path serena;
a path with no parent must be a root path (leading separator, only
empty or dot pieces), and the override consisting of the separator alone
does reach that error. -/
theorem bare_name_strategy_spec :
    (∀ (sys : Sys) (s : SerenaContextServerSettings) (p : List Char),
      s.python_executable = some p → p ≠ [] → '/' ∉ p →
      rustParent (sanitize_windows_path sys.os p) = some [] ∧
      rustJoin [] ("serena".data) = ("serena".data) ∧
      context_server_command sys (some s) ≠
        .error ("Could not determine Python directory".data)) ∧
    (∀ p : List Char, p ≠ [] → rustParent p = none →
      p.head? = some '/' ∧ ∀ c ∈ splitOnSlash p, c = [] ∨ c = ['.']) ∧
    (∀ (sys : Sys) (s : SerenaContextServerSettings),
      s.python_executable = some ['/'] →
      context_server_command sys (some s) =
        .error ("Could not determine Python directory".data)) := by
  refine ⟨?_, rustParent_none_root, ?_⟩
  · intro sys s p hp hne hsep
    have hs : sanitize_windows_path sys.os p = p := by
      apply sanitize_no_lead
      intro hh
      cases p with
      | nil => exact Option.noConfusion hh
      | cons c cs =>
        have hc : c = '/' := Option.some.inj hh
        subst hc
        exact hsep (List.mem_cons_self _ _)
    have hpar : rustParent p = some [] := rustParent_bare p hne hsep
    have hd : rustParent (sanitize_windows_path sys.os p) = some [] := by
      rw [hs]; exact hpar
    have hres : resolve_python_exe sys (some s) = .ok p := by
      simp [resolve_python_exe, hp]
    refine ⟨hd, rfl, ?_⟩
    intro hbad
    by_cases hfe : sys.fileExists (rustJoin [] ("serena".data)) = true
    · simp [context_server_command, hres, hne, hd, hfe] at hbad
    · simp [context_server_command, hres, hne, hd, hfe] at hbad
  · intro sys s hp
    rcases s with ⟨pe, env⟩
    have hp2 : pe = some ['/'] := hp
    subst hp2
    rcases sys with ⟨os, w, pr, fe, hi⟩
    cases os <;> rfl

/-- Witness for claim C10 at concrete inputs: the bare name python3 and
the root-only override. -/
theorem bare_name_strategy_spec_witness :
    rustParent (sanitize_windows_path sysNone.os ("python3".data)) = some [] ∧
    context_server_command sysNone (some ⟨some ['/'], none⟩) =
      .error ("Could not determine Python directory".data) :=
  ⟨(bare_name_strategy_spec.1 sysNone ⟨some ("python3".data), none⟩ ("python3".data)
      rfl (by decide) (by decide)).1,
   bare_name_strategy_spec.2.2 sysNone ⟨some ['/'], none⟩ rfl⟩

/-- Witness for claim C6 at the two-candidate system: the which phase
result is returned by discovery, and the first candidate in the which
list wins. -/
theorem discovery_order_amended_witness :
    find_python_executable sysBoth = .ok ("/a/python3.11".data) ∧
    tryWhich sysBoth (("python3.11".data) :: ["python3.12".data]) =
      some ("/a/python3.11".data) := by
  have h := discovery_order_amended
  exact ⟨h.2.2.1 sysBoth ("/a/python3.11".data) rfl,
         h.2.2.2.2.1 sysBoth ("python3.11".data) ["python3.12".data]
           ("/a/python3.11".data) rfl⟩
